import Mathlib

/-!
Verification of the GraphicsEngine renderer (JobHunt repository) against its
natural-language specification.

The C++ sources are shallowly embedded:
  * `float` values are modelled as exact rationals (`ℚ`); the claims under
    study are structural (branch/clamp/permutation/sign logic) and do not
    depend on rounding.
  * `size_t` / `uint64_t` / `uint32_t` arithmetic is modelled on `ℕ` with an
    explicit `% 2^64` (resp. `% 2^32`) where the C computation can wrap.
  * External math-library calls (`std::tan`, `std::sqrt`, `cosf`, `sinf`)
    are modelled as function parameters (`ℚ → ℚ`): the spec treats the math
    library as an external collaborator, and the properties proved here hold
    for every value those calls can return.
-/

namespace Spec2Proof

/-! ## SolMath.h: vector and matrix value types (floats as rationals) -/

/-- `float3` from SolMath.h. -/
structure Float3 where
  x : ℚ
  y : ℚ
  z : ℚ
  deriving DecidableEq

/-- `float4` from SolMath.h. -/
structure Float4 where
  x : ℚ
  y : ℚ
  z : ℚ
  w : ℚ
  deriving DecidableEq

/-- `float4x4` from SolMath.h: four rows, row-major. -/
structure Float4x4 where
  r0 : Float4
  r1 : Float4
  r2 : Float4
  r3 : Float4
  deriving DecidableEq

instance : Add Float3 := ⟨fun a b => ⟨a.x + b.x, a.y + b.y, a.z + b.z⟩⟩

instance : Sub Float3 := ⟨fun a b => ⟨a.x - b.x, a.y - b.y, a.z - b.z⟩⟩

/-- `float3::operator*(float s)`: componentwise scale. -/
def Float3.smul (v : Float3) (s : ℚ) : Float3 := ⟨v.x * s, v.y * s, v.z * s⟩

/-- `dot(const float3&, const float3&)` from SolMath.h. -/
def dot3 (a b : Float3) : ℚ := a.x * b.x + a.y * b.y + a.z * b.z

/-- `cross(const float3&, const float3&)` from SolMath.h. -/
def cross (a b : Float3) : Float3 :=
  ⟨a.y * b.z - a.z * b.y, a.z * b.x - a.x * b.z, a.x * b.y - a.y * b.x⟩

/-- `dot(const float4&, const float4&)` from SolMath.h. -/
def dot4 (a b : Float4) : ℚ := a.x * b.x + a.y * b.y + a.z * b.z + a.w * b.w

/-- `m_identity()` from SolMath.h. -/
def m_identity : Float4x4 :=
  ⟨⟨1, 0, 0, 0⟩, ⟨0, 1, 0, 0⟩, ⟨0, 0, 1, 0⟩, ⟨0, 0, 0, 1⟩⟩

/-- `m_transpose` from SolMath.h. -/
def m_transpose (m : Float4x4) : Float4x4 :=
  ⟨⟨m.r0.x, m.r1.x, m.r2.x, m.r3.x⟩,
   ⟨m.r0.y, m.r1.y, m.r2.y, m.r3.y⟩,
   ⟨m.r0.z, m.r1.z, m.r2.z, m.r3.z⟩,
   ⟨m.r0.w, m.r1.w, m.r2.w, m.r3.w⟩⟩

/-- `m_mul(a, b)` from SolMath.h: `o[i][j] = dot(a[i], transpose(b)[j])`. -/
def m_mul (a b : Float4x4) : Float4x4 :=
  let t := m_transpose b
  ⟨⟨dot4 a.r0 t.r0, dot4 a.r0 t.r1, dot4 a.r0 t.r2, dot4 a.r0 t.r3⟩,
   ⟨dot4 a.r1 t.r0, dot4 a.r1 t.r1, dot4 a.r1 t.r2, dot4 a.r1 t.r3⟩,
   ⟨dot4 a.r2 t.r0, dot4 a.r2 t.r1, dot4 a.r2 t.r2, dot4 a.r2 t.r3⟩,
   ⟨dot4 a.r3 t.r0, dot4 a.r3 t.r1, dot4 a.r3 t.r2, dot4 a.r3 t.r3⟩⟩

/-- `m_translation(t)` from SolMath.h: identity with row 3's xyz set to `t`. -/
def m_translation (t : Float3) : Float4x4 :=
  ⟨⟨1, 0, 0, 0⟩, ⟨0, 1, 0, 0⟩, ⟨0, 0, 1, 0⟩, ⟨t.x, t.y, t.z, 1⟩⟩

/-- `store_column_major(m, out16)` from SolMath.h: the 16-float output array,
modelled as a function from index to value. -/
def store_column_major (m : Float4x4) : Fin 16 → ℚ :=
  ![m.r0.x, m.r1.x, m.r2.x, m.r3.x,
    m.r0.y, m.r1.y, m.r2.y, m.r3.y,
    m.r0.z, m.r1.z, m.r2.z, m.r3.z,
    m.r0.w, m.r1.w, m.r2.w, m.r3.w]

/-- `load_column_major(in16)` from SolMath.h. -/
def load_column_major (a : Fin 16 → ℚ) : Float4x4 :=
  ⟨⟨a 0, a 4, a 8, a 12⟩,
   ⟨a 1, a 5, a 9, a 13⟩,
   ⟨a 2, a 6, a 10, a 14⟩,
   ⟨a 3, a 7, a 11, a 15⟩⟩

/-! ## Frustum culling (Renderer.cpp, RecordDrawCalls local lambdas) -/

/-- `struct Plane { float3 n{}; float d{}; }` from Renderer.cpp. -/
structure Plane where
  n : Float3
  d : ℚ
  deriving DecidableEq

/-- An axis-aligned bounding box `{center, extents}` (`AABB_t`). -/
structure AABB_t where
  center : Float3
  extents : Float3
  deriving DecidableEq

/-- `struct Fr6 { Plane p[6]; float3 c[8]; }` from Renderer.cpp. -/
structure Fr6 where
  p : Fin 6 → Plane
  c : Fin 8 → Float3

/-- The center's signed distance from a plane:
`n.x*c.x + n.y*c.y + n.z*c.z + d` as computed in `aabbIntersectsFrustum`
and in the orientation loop of `buildWorldFrustum`. -/
def signedDist (pl : Plane) (pt : Float3) : ℚ :=
  pl.n.x * pt.x + pl.n.y * pt.y + pl.n.z * pt.z + pl.d

/-- The box's projected half-extent along a plane normal:
`fabs(n.x)*e.x + fabs(n.y)*e.y + fabs(n.z)*e.z` from `aabbIntersectsFrustum`. -/
def projRadius (pl : Plane) (e : Float3) : ℚ :=
  |pl.n.x| * e.x + |pl.n.y| * e.y + |pl.n.z| * e.z

/-- `aabbIntersectsFrustum` (Renderer.cpp): for each of the 6 planes,
`if (s > r) return false;` then `return true` — an all-planes conjunction
with early exit. -/
def aabbIntersectsFrustum (b : AABB_t) (F : Fr6) : Bool :=
  (List.finRange 6).all fun i =>
    !(decide (projRadius (F.p i) b.extents < signedDist (F.p i) b.center))

/-! ## buildWorldFrustum (Renderer.cpp) -/

/-- `normalize3` lambda (Renderer.cpp): `L = sqrt(dot(v,v)); if (L <= 0)
return 0; return v * (1/L)`. `std::sqrt` is an external math call, passed in
as `sqrtq`. -/
def normalize3 (sqrtq : ℚ → ℚ) (v : Float3) : Float3 :=
  let L := sqrtq (v.x * v.x + v.y * v.y + v.z * v.z)
  if L ≤ 0 then ⟨0, 0, 0⟩
  else
    let inv := 1 / L
    ⟨v.x * inv, v.y * inv, v.z * inv⟩

/-- `makePlane` lambda (Renderer.cpp): normal from the cross product of two
edges, `d = -(n · a)`. -/
def makePlane (sqrtq : ℚ → ℚ) (a b c : Float3) : Plane :=
  let n := normalize3 sqrtq (cross (b - a) (c - a))
  ⟨n, -(n.x * a.x + n.y * a.y + n.z * a.z)⟩

/-- The orientation step at the end of `buildWorldFrustum`: for each plane,
`s = n · ctr + d; if (s > 0) { negate n and d; }`. -/
def orientPlane (ctr : Float3) (pl : Plane) : Plane :=
  if 0 < signedDist pl ctr then ⟨⟨-pl.n.x, -pl.n.y, -pl.n.z⟩, -pl.d⟩ else pl

/-- The centroid of the 8 frustum corners, `(sum of corners) * (1/8)`
componentwise, as computed in `buildWorldFrustum`. -/
def centroid8 (c : Fin 8 → Float3) : Float3 :=
  Float3.smul (c 0 + c 1 + c 2 + c 3 + c 4 + c 5 + c 6 + c 7) (1 / 8)

/-- `buildWorldFrustum` lambda (Renderer.cpp lines 990–1032). `CW` is the
camera-to-world matrix whose rows give right/up/forward/position. The
`std::tan(fovY * 0.5f)` call is external; its value is passed as `t`. -/
def buildWorldFrustum (sqrtq : ℚ → ℚ) (t : ℚ) (CW : Float4x4)
    (aspect zn zf : ℚ) : Fr6 :=
  let right : Float3 := ⟨CW.r0.x, CW.r0.y, CW.r0.z⟩
  let up : Float3 := ⟨CW.r1.x, CW.r1.y, CW.r1.z⟩
  let fwd : Float3 := ⟨CW.r2.x, CW.r2.y, CW.r2.z⟩
  let pos : Float3 := ⟨CW.r3.x, CW.r3.y, CW.r3.z⟩
  let nh := t * zn
  let nw := nh * aspect
  let fh := t * zf
  let fw := fh * aspect
  let nc := pos + Float3.smul fwd zn
  let fc := pos + Float3.smul fwd zf
  let ntl := nc + Float3.smul up nh - Float3.smul right nw
  let ntr := nc + Float3.smul up nh + Float3.smul right nw
  let nbl := nc - Float3.smul up nh - Float3.smul right nw
  let nbr := nc - Float3.smul up nh + Float3.smul right nw
  let ftl := fc + Float3.smul up fh - Float3.smul right fw
  let ftr := fc + Float3.smul up fh + Float3.smul right fw
  let fbl := fc - Float3.smul up fh - Float3.smul right fw
  let fbr := fc - Float3.smul up fh + Float3.smul right fw
  let corners : Fin 8 → Float3 := ![ntl, ntr, nbl, nbr, ftl, ftr, fbl, fbr]
  let raw : Fin 6 → Plane :=
    ![makePlane sqrtq nbl ntl ftl,   -- Left
      makePlane sqrtq nbr fbr ftr,   -- Right
      makePlane sqrtq nbl fbl fbr,   -- Bottom
      makePlane sqrtq ntl ftl ftr,   -- Top
      makePlane sqrtq ntl ntr nbr,   -- Near
      makePlane sqrtq ftr ftl fbl]   -- Far
  let ctr := centroid8 corners
  ⟨fun i => orientPlane ctr (raw i), corners⟩

/-- The spec's claim C4 as stated: every plane produced by
`buildWorldFrustum` has the centroid of the 8 corners at signed distance
`≥ 0` (normals pointing inward). -/
def c4_claim : Prop :=
  ∀ (sqrtq : ℚ → ℚ) (t : ℚ) (CW : Float4x4) (aspect zn zf : ℚ) (i : Fin 6),
    0 ≤ signedDist ((buildWorldFrustum sqrtq t CW aspect zn zf).p i)
        (centroid8 (buildWorldFrustum sqrtq t CW aspect zn zf).c)

/-! ## Machine-integer helpers -/

/-- `2^64`: one past the largest `size_t` / `UINT64` value. -/
def W64 : ℕ := 2 ^ 64

/-- `2^32`: one past the largest `uint32_t` value. -/
def W32 : ℕ := 2 ^ 32

/-- `a - 1` on a `size_t` value (wraps to `2^64 - 1` at `a = 0`). -/
def size_t_sub_one (a : ℕ) : ℕ := (a + (W64 - 1)) % W64

/-- `(x + (alignment - 1)) & ~(alignment - 1)` in `size_t` arithmetic, as
written in `UploadAlloc::Allocate` and `LinearArena::Alloc`. The bitwise
complement of a 64-bit value `m` is `2^64 - 1 - m`. -/
def alignUp64 (x align : ℕ) : ℕ :=
  ((x + size_t_sub_one align) % W64) &&& (W64 - 1 - size_t_sub_one align)

/-! ## Renderer fence synchronization (Renderer.cpp) -/

/-- The renderer state touched by `Renderer::MoveToNextFrame`:
`m_fenceValue`, `m_frameIndex`, `m_cbHead`; `m_transientUploads` is modelled
by its length (it is only cleared here). -/
structure RendererSync where
  fenceValue : ℕ
  frameIndex : ℕ
  cbHead : ℕ
  transientUploads : ℕ
  deriving DecidableEq

/-- `Renderer::MoveToNextFrame()` (Renderer.cpp lines 676–687): reads
`v = m_fenceValue`, signals the fence with `v`, increments `m_fenceValue`,
refreshes `m_frameIndex` from the swapchain (`backBufferIndex`, external),
and — if the fence's completed value (`completed`, the GPU side, read-only
here) is still `< v` — blocks until `v` completes. Finally resets `m_cbHead`
and clears `m_transientUploads`. The second component records the wait:
`some v` when the waiting branch ran (the value waited on), else `none`. -/
def moveToNextFrame (completed backBufferIndex : ℕ) (s : RendererSync) :
    RendererSync × Option ℕ :=
  let v := s.fenceValue
  (⟨(v + 1) % W64, backBufferIndex, 0, 0⟩,
   if completed < v then some v else none)

/-- The sync state right after `Renderer::Initialize`:
`CreateFence(0, ...)` then `m_fenceValue = 1` (Renderer.cpp lines 218–219). -/
def initSync : RendererSync := ⟨1, 0, 0, 0⟩

/-- `k` calls of `MoveToNextFrame` from the freshly initialized renderer,
with the GPU's completed fence value frozen at `completed`. -/
def runMoveToNextFrame (completed : ℕ) : ℕ → RendererSync
  | 0 => initSync
  | k + 1 => (moveToNextFrame completed 0 (runMoveToNextFrame completed k)).1

/-- The wait outcome of call number `k + 1` in such a run. -/
def callWait (completed k : ℕ) : Option ℕ :=
  (moveToNextFrame completed 0 (runMoveToNextFrame completed k)).2

/-- The spec's claim C1 as stated, for the run in which the GPU never
completes anything (the fence is created with completed value 0 and never
advances): the first three calls take the non-waiting branch; the fourth
blocks, waiting for the oldest outstanding signaled value, which is 1. -/
def c1_claim : Prop :=
  callWait 0 0 = none ∧ callWait 0 1 = none ∧ callWait 0 2 = none ∧
    callWait 0 3 = some 1

/-! ## UploadAlloc (include/Memory/UploadAlloc.h and
include/GraphicsEngine/Memory/UploadAlloc.h) -/

/-- The `UploadAlloc` members the allocation path reads and writes. The
mapped buffer pointer `m_cpuBase` and GPU base address `m_gpuBase` are plain
addresses. -/
structure UploadAlloc where
  perFrameSize : ℕ
  frameCount : ℕ
  currentFrame : ℕ
  head : ℕ
  cpuBase : ℕ
  gpuBase : ℕ
  totalSize : ℕ
  deriving DecidableEq

/-- `UploadAlloc::Allocation`: `cpuPtr == nullptr` (here `none`) marks the
invalid allocation. -/
structure Allocation where
  cpuPtr : Option ℕ
  gpuAddress : ℕ
  size : ℕ
  deriving DecidableEq

/-- `Allocation{}`. -/
def Allocation.invalid : Allocation := ⟨none, 0, 0⟩

/-- `UploadAlloc::BeginFrame(frameIndex)`: sets `m_currentFrame` (a
`uint32_t`) and `m_head = frameIndex * m_perFrameSize` (in `size_t`). -/
def UploadAlloc.BeginFrame (s : UploadAlloc) (frameIndex : ℕ) : UploadAlloc :=
  { s with currentFrame := frameIndex % W32,
           head := (frameIndex % W32 * s.perFrameSize) % W64 }

/-- `UploadAlloc::Allocate(size, alignment)` from include/Memory/UploadAlloc.h
(lines 79–109): rejects `size == 0`, aligns the cursor up, and fails (debug
assertion — a no-op in release — followed by `return Allocation{}`) when the
new head would pass the frame's region end; otherwise returns the pointer
pair and advances the cursor. -/
def UploadAlloc.Allocate (s : UploadAlloc) (size align : ℕ) :
    Allocation × UploadAlloc :=
  if size = 0 then (Allocation.invalid, s)
  else
    let frameStart := (s.currentFrame * s.perFrameSize) % W64
    let frameEnd := (frameStart + s.perFrameSize) % W64
    let aligned := alignUp64 s.head align
    let newHead := (aligned + size) % W64
    if frameEnd < newHead then (Allocation.invalid, s)
    else
      (⟨some ((s.cpuBase + aligned) % W64), (s.gpuBase + aligned) % W64, size⟩,
       { s with head := newHead })

/-- `UploadAlloc::Allocate` from include/GraphicsEngine/Memory/UploadAlloc.h
(lines 65–90): no `size == 0` guard; otherwise the same `size_t` computation
(`aligned + size > frameEnd` is the same wrapped comparison). -/
def UploadAlloc.Allocate' (s : UploadAlloc) (size align : ℕ) :
    Allocation × UploadAlloc :=
  let frameStart := (s.currentFrame * s.perFrameSize) % W64
  let frameEnd := (frameStart + s.perFrameSize) % W64
  let aligned := alignUp64 s.head align
  let newHead := (aligned + size) % W64
  if frameEnd < newHead then (Allocation.invalid, s)
  else
    (⟨some ((s.cpuBase + aligned) % W64), (s.gpuBase + aligned) % W64, size⟩,
     { s with head := newHead })

/-- A sequence of `Allocate` calls, collecting the returned allocations. -/
def UploadAlloc.runAllocs : UploadAlloc → List (ℕ × ℕ) → List Allocation × UploadAlloc
  | s, [] => ([], s)
  | s, (sz, al) :: rest =>
    let out := UploadAlloc.Allocate s sz al
    let rec_ := UploadAlloc.runAllocs out.2 rest
    (out.1 :: rec_.1, rec_.2)

/-- A concrete `UploadAlloc` used to instantiate the C2 theorem. -/
def uploadAllocExample : UploadAlloc :=
  ⟨16, 3, 0, 0, 0, 4096, 48⟩

/-! ## DescriptorRing (include/GraphicsEngine/Descriptors/DescriptorRing.h) -/

/-- `DescriptorRing::Slice`. Handle bases are raw `ptr` values. -/
structure Slice where
  first : ℕ
  count : ℕ
  cursor : ℕ
  cpuBase : ℕ
  gpuBase : ℕ
  descriptorSize : ℕ
  deriving DecidableEq, Inhabited

/-- `Slice::CPU(index)`: `cpuBase.ptr + SIZE_T((cursor + index) *
descriptorSize)` — the multiplication happens in `uint32_t`. -/
def Slice.CPU (s : Slice) (index : ℕ) : ℕ :=
  (s.cpuBase + (s.cursor + index) * s.descriptorSize % W32) % W64

/-- `Slice::Alloc(n)` (DescriptorRing.h lines 29–33): returns the current
cursor and advances it by `n` — no bounds check of any kind. -/
def Slice.Alloc (s : Slice) (n : ℕ) : ℕ × Slice :=
  (s.cursor, { s with cursor := (s.cursor + n) % W32 })

/-- `Slice::Reset()`. -/
def Slice.Reset (s : Slice) : Slice := { s with cursor := 0 }

/-- The `DescriptorRing` members relevant to frame-slice allocation. -/
structure DescriptorRing where
  descriptorSize : ℕ
  totalCount : ℕ
  perFrameCount : ℕ
  frameCount : ℕ
  slices : List Slice

/-- `DescriptorRing::BeginFrame(frameIndex)` (lines 76–80): resets the
slice's cursor and returns it (a reference; the ring with the updated
slice is returned alongside). -/
def DescriptorRing.BeginFrame (r : DescriptorRing) (f : ℕ) :
    Slice × DescriptorRing :=
  let sl := (r.slices.getD f default).Reset
  (sl, { r with slices := r.slices.set f sl })

/-- A sequence of `Slice::Alloc` calls, collecting the returned offsets. -/
def Slice.runAllocs : Slice → List ℕ → List ℕ × Slice
  | s, [] => ([], s)
  | s, n :: rest =>
    let out := Slice.Alloc s n
    let rec_ := Slice.runAllocs out.2 rest
    (out.1 :: rec_.1, rec_.2)

/-- The offsets produced by `BeginFrame(f)` followed by the `Alloc` call
sequence `ns`. -/
def DescriptorRing.frameAllocOffsets (r : DescriptorRing) (f : ℕ)
    (ns : List ℕ) : List ℕ :=
  (Slice.runAllocs (r.BeginFrame f).1 ns).1

/-- The offsets claim C6 expects, from the spec's words: the j-th `Alloc`
returns the prefix sum `n1 + ... + n(j-1)` (as a `uint32_t`). -/
def prefixSumsU32 (ns : List ℕ) : List ℕ :=
  (List.range ns.length).map fun j => (ns.take j).sum % W32

/-- The spec's claim C5 as stated: an `Alloc(n)` that would push the cursor
past `count` fails fast rather than handing out slots past the end of the
slice's partition — i.e. every returned offset still satisfies
`offset + n ≤ count`. -/
def c5_claim : Prop :=
  ∀ (s : Slice) (n : ℕ), s.count < s.cursor + n → (Slice.Alloc s n).1 + n ≤ s.count

/-- A concrete over-full slice used for C5: capacity 4, cursor already at 4. -/
def sliceExample : Slice := ⟨0, 4, 4, 0, 0, 1⟩

/-! ## LinearArena (include/Memory/LinearArena.h) -/

/-- `LinearArena`: the byte buffer is modelled by its size (`buffer.size()`);
the claims under study do not depend on its contents. -/
structure LinearArena where
  bufferSize : ℕ
  cursor : ℕ
  deriving DecidableEq

/-- The constructor `LinearArena(capacity)`: `buffer.resize(capacity)`,
cursor 0. -/
def LinearArena.init (capacity : ℕ) : LinearArena := ⟨capacity, 0⟩

/-- `LinearArena::Reset()`: rewinds the cursor only. -/
def LinearArena.Reset (s : LinearArena) : LinearArena := { s with cursor := 0 }

/-- `LinearArena::Alloc(size, alignment)` (LinearArena.h lines 20–28): aligns
the cursor up; if `aligned + size > buffer.size()` it GROWS the buffer with
`buffer.resize(aligned + size)`; returns the offset `aligned` (of
`buffer.data() + aligned`) and sets `cursor = aligned + size`. -/
def LinearArena.Alloc (s : LinearArena) (size align : ℕ) : ℕ × LinearArena :=
  let aligned := alignUp64 s.cursor align
  let newCursor := (aligned + size) % W64
  (aligned, ⟨if s.bufferSize < newCursor then newCursor else s.bufferSize, newCursor⟩)

/-- A sequence of `LinearArena::Alloc` calls. -/
def LinearArena.runAllocs : LinearArena → List (ℕ × ℕ) → LinearArena
  | s, [] => s
  | s, (sz, al) :: rest => LinearArena.runAllocs (LinearArena.Alloc s sz al).2 rest

/-- The spec's claim C9 as stated: for every capacity and every `Alloc`
sequence the underlying buffer's size stays at the constructed capacity. -/
def c9_claim : Prop :=
  ∀ (capacity : ℕ) (reqs : List (ℕ × ℕ)),
    (LinearArena.runAllocs (LinearArena.init capacity) reqs).bufferSize = capacity

/-! ## Camera (Camera.cpp, Camera.h, SolMath.h) -/

/-- `to_radians(deg)` from SolMath.h: `deg * (3.14159265358979323846f /
180.0f)` — the float literal is embedded as the written rational. -/
def to_radians (deg : ℚ) : ℚ := deg * (3.14159265358979323846 / 180)

/-- `normalize_safe(v, fb)` from SolMath.h: `len = length(v)` (an external
`std::sqrt` of the dot product, passed as `sqrtq`); if `len < 1e-6` the
fallback is returned, else `v * (1/len)`. -/
def normalize_safe (sqrtq : ℚ → ℚ) (v fb : Float3) : Float3 :=
  let len := sqrtq (dot3 v v)
  if len < 1e-6 then fb else Float3.smul v (1 / len)

/-- The `Camera` members (Camera.h). -/
structure Camera where
  pos : Float3
  yaw : ℚ
  pitch : ℚ
  fovY : ℚ
  aspect : ℚ
  zn : ℚ
  zf : ℚ
  forward : Float3
  right : Float3
  up : Float3

/-- `Camera::UpdateBasis()` (Camera.cpp): recomputes forward/right/up from
yaw and pitch; `cosf`/`sinf`/`sqrt` are external math calls. Does not touch
`m_pitch`. -/
def Camera.UpdateBasis (sinq cosq sqrtq : ℚ → ℚ) (c : Camera) : Camera :=
  let cy := cosq c.yaw
  let sy := sinq c.yaw
  let cp := cosq c.pitch
  let sp := sinq c.pitch
  let fwd := normalize_safe sqrtq ⟨sy * cp, sp, cy * cp⟩ ⟨0, 0, 0⟩
  let r := normalize_safe sqrtq (cross ⟨0, 1, 0⟩ fwd) ⟨1, 0, 0⟩
  { c with forward := fwd, right := r, up := cross fwd r }

/-- `Camera::YawPitch(dyaw, dpitch)` (Camera.cpp lines 7–10): accumulates
yaw unclamped, accumulates pitch and clamps it to
`[-to_radians(89), to_radians(89)]` with two sequential `if`s, then calls
`UpdateBasis`. -/
def Camera.YawPitch (sinq cosq sqrtq : ℚ → ℚ) (c : Camera)
    (dyaw dpitch : ℚ) : Camera :=
  let yaw := c.yaw + dyaw
  let p0 := c.pitch + dpitch
  let limit := to_radians 89
  let p1 := if limit < p0 then limit else p0
  let p2 := if p1 < -limit then -limit else p1
  Camera.UpdateBasis sinq cosq sqrtq { c with yaw := yaw, pitch := p2 }

/-- `Camera::SetLens`. -/
def Camera.SetLens (c : Camera) (fovYRadians aspect zn zf : ℚ) : Camera :=
  { c with fovY := fovYRadians, aspect := aspect, zn := zn, zf := zf }

/-- `Camera::SetPosition`. -/
def Camera.SetPosition (c : Camera) (p : Float3) : Camera := { c with pos := p }

/-- `Camera::TranslateRelative(dx, dy, dz)`:
`m_pos += dx*m_right + dy*m_up + dz*m_forward`. -/
def Camera.TranslateRelative (c : Camera) (dx dy dz : ℚ) : Camera :=
  { c with pos := c.pos + Float3.smul c.right dx + Float3.smul c.up dy +
      Float3.smul c.forward dz }

/-! ## The opaque pass's constant-buffer records (Renderer.cpp,
RecordDrawCalls) -/

/-- `struct SceneCB` (Renderer.cpp lines 20–29): the 160-byte per-draw
constant-buffer record. -/
structure SceneCB where
  mvp : Fin 16 → ℚ
  lightDir : Float3
  pad0 : ℚ
  viewportW : ℚ
  viewportH : ℚ
  thicknessPx : ℚ
  pad1 : ℚ
  lightVP : Fin 16 → ℚ

/-- `WriteCB` (Renderer.cpp lines 32–48): fills a `SceneCB`: the matrix and
light-view-projection stored column-major, the light direction copied
verbatim. -/
def WriteCB (MrowMajor : Float4x4) (light : Float3)
    (viewportW viewportH thicknessPx : ℚ) (lightVP : Option Float4x4) : SceneCB :=
  { mvp := store_column_major MrowMajor
    lightDir := light
    pad0 := 0
    viewportW := viewportW
    viewportH := viewportH
    thicknessPx := thicknessPx
    pad1 := 0
    lightVP := match lightVP with
      | some m => store_column_major m
      | none => store_column_major m_identity }

/-- The renderer state `RecordDrawCalls` reads while emitting constant-buffer
records. `lightDirValue` is `ComputeLightDir()`'s return value (external
trig, identical at all its call sites within one pass) and `testCubeM` the
test cube's model matrix (`m_trs` of a quaternion from external trig). `F`
is the frustum the pass builds with `buildWorldFrustum`. -/
structure OpaquePassState where
  lightEnabled : Bool
  showGrid : Bool
  showRandomCubes : Bool
  showTestCube : Bool
  showPlayerFrustum : Bool
  lightDirValue : Float3
  V : Float4x4
  P : Float4x4
  lightView : Float4x4
  lightProj : Float4x4
  width : ℚ
  height : ℚ
  playerPos : Float3
  testCubeM : Float4x4
  debugBoxes : List (AABB_t × Float3)
  F : Fr6

/-- The `bindMVP` lambda (Renderer.cpp lines 933–945): writes a `SceneCB`
with the caller-supplied light direction, zero viewport/thickness. -/
def bindMVP (st : OpaquePassState) (M : Float4x4) (lightDir : Float3) : SceneCB :=
  WriteCB (m_mul M (m_mul st.V st.P)) lightDir 0 0 0
    (some (m_mul M (m_mul st.lightView st.lightProj)))

/-- The `bindMVP_Lines` lambda (Renderer.cpp lines 946–961): writes a
`SceneCB` whose light direction is `m_lightEnabled ? ComputeLightDir() :
(0,0,0)`. -/
def bindMVP_Lines (st : OpaquePassState) (M : Float4x4) (thicknessPx : ℚ) : SceneCB :=
  WriteCB (m_mul M (m_mul st.V st.P))
    (if st.lightEnabled then st.lightDirValue else ⟨0, 0, 0⟩)
    st.width st.height thicknessPx
    (some (m_mul M (m_mul st.lightView st.lightProj)))

/-- The constant-buffer records the opaque pass writes, in order
(Renderer.cpp lines 1056–1205): ground (`bindMVP`, gated light), grid lines
if shown, the surviving-boxes line batch if any box passes culling, the
player axes lines, the lit test cube (`bindMVP`, gated light) if shown, and
the frustum visualization lines if shown. -/
def recordDrawCallsCBs (st : OpaquePassState) : List SceneCB :=
  [bindMVP st m_identity (if st.lightEnabled then st.lightDirValue else ⟨0, 0, 0⟩)]
  ++ (if st.showGrid then [bindMVP_Lines st m_identity 1] else [])
  ++ (if st.showRandomCubes && !st.debugBoxes.isEmpty &&
        st.debugBoxes.any (fun bx => aabbIntersectsFrustum bx.1 st.F) then
        [bindMVP_Lines st m_identity (5/2)] else [])
  ++ [bindMVP_Lines st (m_translation st.playerPos) (5/2)]
  ++ (if st.showTestCube then
        [bindMVP st st.testCubeM
          (if st.lightEnabled then st.lightDirValue else ⟨0, 0, 0⟩)] else [])
  ++ (if st.showPlayerFrustum then [bindMVP_Lines st m_identity (5/2)] else [])

/-- A concrete pass state with the light disabled, used to instantiate C7. -/
def opaqueStateExample : OpaquePassState :=
  ⟨false, false, false, false, false, ⟨0, 1, 0⟩, m_identity, m_identity,
   m_identity, m_identity, 1280, 720, ⟨0, 0, 0⟩, m_identity, [],
   ⟨fun _ => ⟨⟨0, 0, 0⟩, 0⟩, fun _ => ⟨0, 0, 0⟩⟩⟩

end Spec2Proof

namespace Spec2Proof

/-! ## Theorems: C8 and C3 -/

/-- C8: `load_column_major` applied to the array produced by
`store_column_major` reproduces the matrix exactly in all 16 components
(both functions are pure permutations of the components). -/
theorem c8_store_load_column_major_roundtrip (m : Float4x4) :
    load_column_major (store_column_major m) = m := rfl

/-- C3: the culling decision of `aabbIntersectsFrustum` is: a box is excluded
(result `false`) iff for some plane the center's signed distance exceeds the
projected half-extent; consequently a box whose signed distance is ≤ the
half-extent on all 6 planes is drawn, and one strictly outside any one plane
is culled. -/
theorem c3_aabbIntersectsFrustum_iff_plane_test (b : AABB_t) (F : Fr6) :
    (aabbIntersectsFrustum b F = false ↔
      ∃ i : Fin 6, projRadius (F.p i) b.extents < signedDist (F.p i) b.center)
    ∧ ((∀ i : Fin 6, signedDist (F.p i) b.center ≤ projRadius (F.p i) b.extents) →
        aabbIntersectsFrustum b F = true)
    ∧ (∀ i : Fin 6, projRadius (F.p i) b.extents < signedDist (F.p i) b.center →
        aabbIntersectsFrustum b F = false) := by
  have hall : aabbIntersectsFrustum b F = true ↔
      ∀ i : Fin 6, ¬ projRadius (F.p i) b.extents < signedDist (F.p i) b.center := by
    simp [aabbIntersectsFrustum, List.all_eq_true, List.mem_finRange]
  have hfalse : aabbIntersectsFrustum b F = false ↔
      ∃ i : Fin 6, projRadius (F.p i) b.extents < signedDist (F.p i) b.center := by
    rw [← Bool.not_eq_true, hall]
    push_neg
    rfl
  refine ⟨hfalse, fun h => hall.mpr fun i => not_lt.mpr (h i), fun i hi => hfalse.mpr ⟨i, hi⟩⟩

/-! ## Evaluation helpers (definitional, used to compute concrete instances) -/

theorem add3_def (a b : Float3) : a + b = ⟨a.x + b.x, a.y + b.y, a.z + b.z⟩ := rfl

theorem sub3_def (a b : Float3) : a - b = ⟨a.x - b.x, a.y - b.y, a.z - b.z⟩ := rfl

theorem vec6P_0 (v0 v1 v2 v3 v4 v5 : Plane) :
    (![v0, v1, v2, v3, v4, v5] : Fin 6 → Plane) 0 = v0 := rfl

theorem centroid8_vec (v0 v1 v2 v3 v4 v5 v6 v7 : Float3) :
    centroid8 ![v0, v1, v2, v3, v4, v5, v6, v7] =
      Float3.smul (v0 + v1 + v2 + v3 + v4 + v5 + v6 + v7) (1 / 8) := rfl

/-! ## Theorems: C4 -/

/-- The orientation step guarantees the centroid ends on the non-positive
side of every plane, whatever the plane and centroid are. -/
theorem orientPlane_signedDist_nonpos (ctr : Float3) (pl : Plane) :
    signedDist (orientPlane ctr pl) ctr ≤ 0 := by
  unfold orientPlane
  split
  · rename_i h
    simp only [signedDist] at h ⊢
    linarith
  · rename_i h
    exact le_of_not_lt h

/-- C4 counterexample: at a concrete camera (identity camera-to-world,
`tan(fovY/2) = 1`, aspect 1, near 1, far 2, `sqrt` modelled by a concrete
function), the left plane puts the corner centroid at signed distance
`-3 < 0`: the built normals point outward, not inward as claimed. -/
theorem c4_counterexample_centroid_negative_side : ¬ c4_claim := by
  intro h
  have h0 := h (fun _ => 1) 1 m_identity 1 1 2 0
  norm_num [buildWorldFrustum, centroid8_vec, vec6P_0, makePlane, normalize3,
    cross, orientPlane, signedDist, m_identity, Float3.smul, add3_def,
    sub3_def] at h0

/-- C4 amended: every plane produced by `buildWorldFrustum` is oriented so
that the centroid of the 8 frustum corners has signed distance `≤ 0`
(the frustum interior is each plane's NON-positive half-space: normals point
outward). This holds for every camera matrix, fov tangent, aspect and
near/far values, and for every value of the external `sqrt`. -/
theorem c4_frustum_centroid_nonpositive_side (sqrtq : ℚ → ℚ) (t : ℚ)
    (CW : Float4x4) (aspect zn zf : ℚ) (i : Fin 6) :
    signedDist ((buildWorldFrustum sqrtq t CW aspect zn zf).p i)
        (centroid8 (buildWorldFrustum sqrtq t CW aspect zn zf).c) ≤ 0 := by
  dsimp only [buildWorldFrustum]
  exact orientPlane_signedDist_nonpos _ _

/-! ## Theorems: C1 -/

/-- `m_fenceValue` after `k` calls: each call signals the current value and
increments, so the counter reads `1 + k` (as a `UINT64`). -/
theorem runMoveToNextFrame_fenceValue (c k : ℕ) :
    (runMoveToNextFrame c k).fenceValue = (1 + k) % W64 := by
  induction k with
  | zero =>
    have : (1 : ℕ) % W64 = 1 := Nat.mod_eq_of_lt (by norm_num [W64])
    simp [runMoveToNextFrame, initSync, this]
  | succ k ih =>
    show ((runMoveToNextFrame c k).fenceValue + 1) % W64 = (1 + (k + 1)) % W64
    rw [ih, Nat.mod_add_mod, Nat.add_assoc]

/-- C1 counterexample: with the fence created at completed value 0 and the
GPU never completing anything, already the FIRST `MoveToNextFrame` call takes
the waiting branch (it waits on the value it just signaled, 1) — the claim
says the first three calls must not block. -/
theorem c1_counterexample_first_call_blocks : ¬ c1_claim := by
  intro h
  exact absurd h.1 (by decide)

/-- C1 amended: `MoveToNextFrame` signals `v = m_fenceValue` and then waits
whenever the completed value is `< v` — it waits for the value signaled by
that same call, not for an older frame slot's value. In a run with the
completed value frozen at `c`, call number `k + 1` signals `k + 1` and takes
the waiting branch exactly when `c < k + 1`; so with `c = 0` (no GPU
completion) every call, including the first, blocks, on the just-signaled
value. There is no buffering-depth-3 grace period. -/
theorem c1_moveToNextFrame_waits_every_call (c k : ℕ) (hk : k + 1 < W64) :
    callWait c k = if c < k + 1 then some (k + 1) else none := by
  unfold callWait moveToNextFrame
  simp only [runMoveToNextFrame_fenceValue]
  have h1 : (1 + k) % W64 = k + 1 := by
    rw [Nat.mod_eq_of_lt (by omega)]
    omega
  rw [h1]

/-- C1 witness: at `c = 0`, `k = 0`, the first call waits on value 1. -/
theorem c1_witness : callWait 0 0 = some 1 := by
  have h := c1_moveToNextFrame_waits_every_call 0 0 (by norm_num [W64])
  simpa using h

/-! ## Theorems: C5 -/

/-- C5 counterexample: a slice with capacity `count = 4` whose cursor is
already at 4 still hands out offset 4 from `Alloc(1)` — one past the end of
its partition; there is no assertion and no invalid result. -/
theorem c5_counterexample_alloc_past_count : ¬ c5_claim := by
  intro h
  have h4 := h sliceExample 1 (by norm_num [sliceExample])
  norm_num [sliceExample, Slice.Alloc] at h4

/-- C5 amended: `Slice::Alloc` performs no bounds check of any kind: it
always returns the pre-call cursor (even when that is already `≥ count`,
i.e. past the slice's partition) and advances the cursor by `n` (as a
`uint32_t`), regardless of `count`. Overflow past the per-frame budget is
silently undetected. -/
theorem c5_slice_alloc_unchecked (s : Slice) (n : ℕ) (h : s.count ≤ s.cursor) :
    (Slice.Alloc s n).1 = s.cursor ∧ s.count ≤ (Slice.Alloc s n).1 ∧
      (Slice.Alloc s n).2.cursor = (s.cursor + n) % W32 :=
  ⟨rfl, h, rfl⟩

/-- C5 witness: the over-full slice at a concrete input. -/
theorem c5_witness : (Slice.Alloc sliceExample 1).1 = sliceExample.cursor ∧
    sliceExample.count ≤ (Slice.Alloc sliceExample 1).1 ∧
    (Slice.Alloc sliceExample 1).2.cursor = (sliceExample.cursor + 1) % W32 :=
  c5_slice_alloc_unchecked sliceExample 1 (by norm_num [sliceExample])

/-! ## Theorems: C9 -/

/-- C9 counterexample: an arena constructed with capacity 0 has buffer size
16 after a single `Alloc(16, 16)` — `Alloc` resized (grew) the buffer. -/
theorem c9_counterexample_buffer_grows : ¬ c9_claim := by
  intro h
  exact absurd (h 0 [(16, 16)]) (by decide)

/-- C9 amended: `LinearArena::Alloc` bump-allocates but GROWS the buffer
(`buffer.resize(aligned + size)`) exactly when the aligned request exceeds
the current buffer size — so the buffer size is the maximum of the old size
and the new cursor, never shrinks across any `Alloc` sequence, and only
`Reset` (which rewinds the cursor and leaves the size alone) is effect-free
on the buffer. -/
theorem c9_linearArena_alloc_growth (s : LinearArena) (size align : ℕ)
    (reqs : List (ℕ × ℕ)) :
    ((LinearArena.Alloc s size align).2.bufferSize =
        max s.bufferSize ((alignUp64 s.cursor align + size) % W64))
    ∧ (LinearArena.Alloc s size align).2.cursor =
        (alignUp64 s.cursor align + size) % W64
    ∧ s.bufferSize ≤ (LinearArena.runAllocs s reqs).bufferSize
    ∧ (LinearArena.Reset s).bufferSize = s.bufferSize
    ∧ (LinearArena.Reset s).cursor = 0 := by
  refine ⟨?_, rfl, ?_, rfl, rfl⟩
  · simp only [LinearArena.Alloc]
    split <;> omega
  · induction reqs generalizing s with
    | nil => exact le_refl _
    | cons req rest ih =>
      refine le_trans ?_ (ih (LinearArena.Alloc s req.1 req.2).2)
      simp only [LinearArena.Alloc]
      split <;> omega

/-! ## Theorems: C10 -/

/-- C10: `Camera::YawPitch` clamps the accumulated pitch into
`[-to_radians(89), to_radians(89)]` on every call (from any state and for
any deltas and any values of the external trig/sqrt), accumulates yaw
unclamped, and no other `Camera` operation modifies the pitch. -/
theorem c10_camera_pitch_clamped (sinq cosq sqrtq : ℚ → ℚ) (c : Camera)
    (dyaw dpitch : ℚ) (p : Float3) (fv av znv zfv dx dy dz : ℚ) :
    (-(to_radians 89) ≤ (Camera.YawPitch sinq cosq sqrtq c dyaw dpitch).pitch
      ∧ (Camera.YawPitch sinq cosq sqrtq c dyaw dpitch).pitch ≤ to_radians 89)
    ∧ (Camera.YawPitch sinq cosq sqrtq c dyaw dpitch).yaw = c.yaw + dyaw
    ∧ (Camera.SetLens c fv av znv zfv).pitch = c.pitch
    ∧ (Camera.SetPosition c p).pitch = c.pitch
    ∧ (Camera.TranslateRelative c dx dy dz).pitch = c.pitch := by
  have hL : (0 : ℚ) < to_radians 89 := by norm_num [to_radians]
  refine ⟨?_, rfl, rfl, rfl, rfl⟩
  show -(to_radians 89) ≤
      (if (if to_radians 89 < c.pitch + dpitch then to_radians 89
            else c.pitch + dpitch) < -(to_radians 89)
        then -(to_radians 89)
        else if to_radians 89 < c.pitch + dpitch then to_radians 89
          else c.pitch + dpitch)
    ∧ (if (if to_radians 89 < c.pitch + dpitch then to_radians 89
            else c.pitch + dpitch) < -(to_radians 89)
        then -(to_radians 89)
        else if to_radians 89 < c.pitch + dpitch then to_radians 89
          else c.pitch + dpitch) ≤ to_radians 89
  have hp1 : (if to_radians 89 < c.pitch + dpitch then to_radians 89
      else c.pitch + dpitch) ≤ to_radians 89 := by
    split
    · exact le_refl _
    · rename_i h1
      exact le_of_not_lt h1
  by_cases h2 : (if to_radians 89 < c.pitch + dpitch then to_radians 89
      else c.pitch + dpitch) < -(to_radians 89)
  · rw [if_pos h2]
    exact ⟨le_refl _, by linarith⟩
  · rw [if_neg h2]
    exact ⟨not_lt.mp h2, hp1⟩

/-! ## Theorems: C6 -/

/-- Offsets returned by a run of `Slice::Alloc` calls: each is the starting
cursor plus the sum of the preceding counts, as a `uint32_t`. -/
theorem slice_runAllocs_offsets (ns : List ℕ) (s : Slice) (hc : s.cursor < W32) :
    (Slice.runAllocs s ns).1 =
      (List.range ns.length).map fun j => (s.cursor + (ns.take j).sum) % W32 := by
  induction ns generalizing s with
  | nil => simp [Slice.runAllocs]
  | cons n rest ih =>
    have hs' : ((s.cursor + n) % W32) < W32 := Nat.mod_lt _ (by norm_num [W32])
    simp only [Slice.runAllocs, Slice.Alloc]
    rw [List.length_cons, List.range_succ_eq_map, List.map_cons]
    congr 1
    · simpa using (Nat.mod_eq_of_lt hc).symm
    · rw [ih _ hs', List.map_map]
      apply List.map_congr_left
      intro j hj
      show ((s.cursor + n) % W32 + (rest.take j).sum) % W32 =
        (s.cursor + ((n :: rest).take (j + 1)).sum) % W32
      rw [Nat.mod_add_mod, List.take_succ_cons, List.sum_cons, Nat.add_assoc]

/-- C6: after `DescriptorRing::BeginFrame(f)` the sequence of `Alloc(nj)`
calls returns exactly the running prefix sums `n1 + ... + n(j-1)` (as
`uint32_t` values), whatever the ring's prior state — so repeating
`BeginFrame` with the same `Alloc` sequence yields exactly the same offsets,
regardless of any allocations made in earlier frames or by other rings. -/
theorem c6_slice_offsets_are_prefix_sums (r : DescriptorRing) (f : ℕ)
    (ns : List ℕ) :
    DescriptorRing.frameAllocOffsets r f ns = prefixSumsU32 ns
    ∧ ∀ (r' : DescriptorRing) (f' : ℕ),
        DescriptorRing.frameAllocOffsets r' f' ns =
          DescriptorRing.frameAllocOffsets r f ns := by
  have key : ∀ (rr : DescriptorRing) (ff : ℕ),
      DescriptorRing.frameAllocOffsets rr ff ns = prefixSumsU32 ns := by
    intro rr ff
    unfold DescriptorRing.frameAllocOffsets DescriptorRing.BeginFrame
    rw [slice_runAllocs_offsets _ _ (by simp [Slice.Reset]; norm_num [W32])]
    unfold prefixSumsU32
    apply List.map_congr_left
    intro j hj
    simp [Slice.Reset]
  exact ⟨key r f, fun r' f' => (key r' f').trans (key r f).symm⟩

/-! ## Theorems: C7 -/

/-- Membership in a conditional singleton list pins down the element. -/
theorem mem_ite_singleton {α : Type} {c : Prop} [Decidable c] {a x : α}
    (h : a ∈ (if c then [x] else [])) : a = x := by
  split at h
  · simpa using h
  · simp at h

/-- C7: with `m_lightEnabled == false`, every constant-buffer record the
opaque pass writes (ground draw, test-cube draw, and every line draw routed
through `bindMVP_Lines`) carries `lightDir == (0,0,0)`, for every configured
light yaw/pitch (every possible `ComputeLightDir()` value) and every other
renderer state. -/
theorem c7_lightDir_zero_when_light_disabled (st : OpaquePassState)
    (h : st.lightEnabled = false) :
    (recordDrawCallsCBs st).map SceneCB.lightDir =
      List.replicate (recordDrawCallsCBs st).length ⟨0, 0, 0⟩ := by
  rw [List.eq_replicate_iff]
  refine ⟨by simp, ?_⟩
  intro b hb
  rw [List.mem_map] at hb
  obtain ⟨cb, hcb, rfl⟩ := hb
  simp only [recordDrawCallsCBs] at hcb
  rcases List.mem_append.mp hcb with h15 | hF
  · rcases List.mem_append.mp h15 with h14 | hT
    · rcases List.mem_append.mp h14 with h13 | hAx
      · rcases List.mem_append.mp h13 with h12 | hRC
        · rcases List.mem_append.mp h12 with hG0 | hGr
          · rw [List.mem_singleton] at hG0
            subst hG0
            simp [bindMVP, WriteCB, h]
          · have hx := mem_ite_singleton hGr
            subst hx
            simp [bindMVP_Lines, WriteCB, h]
        · have hx := mem_ite_singleton hRC
          subst hx
          simp [bindMVP_Lines, WriteCB, h]
      · rw [List.mem_singleton] at hAx
        subst hAx
        simp [bindMVP_Lines, WriteCB, h]
    · have hx := mem_ite_singleton hT
      subst hx
      simp [bindMVP, WriteCB, h]
  · have hx := mem_ite_singleton hF
    subst hx
    simp [bindMVP_Lines, WriteCB, h]

/-- C7 witness: at a concrete state with the light disabled. -/
theorem c7_witness :
    (recordDrawCallsCBs opaqueStateExample).map SceneCB.lightDir =
      List.replicate (recordDrawCallsCBs opaqueStateExample).length ⟨0, 0, 0⟩ :=
  c7_lightDir_zero_when_light_disabled opaqueStateExample rfl

/-! ## Theorems: C2 -/

/-- Masking with the 64-bit complement of a power-of-two-minus-one clears the
low `k` bits: `y & (2^64 - 2^k) = y - y % 2^k` for any 64-bit `y`. -/
theorem and_two_pow_compl {y k : ℕ} (hk : k ≤ 64) (hy : y < 2 ^ 64) :
    y &&& (2 ^ 64 - 2 ^ k) = y - y % 2 ^ k := by
  have hsub : y - y % 2 ^ k = 2 ^ k * (y / 2 ^ k) := by
    have := Nat.div_add_mod y (2 ^ k)
    omega
  rw [hsub]
  have h1 : (1 : ℕ) ≤ 2 ^ k := Nat.one_le_two_pow
  have hk64 : (2 : ℕ) ^ k ≤ 2 ^ 64 := Nat.pow_le_pow_right (by norm_num) hk
  have hx : 2 ^ k - 1 < 2 ^ 64 := by omega
  apply Nat.eq_of_testBit_eq
  intro i
  rw [Nat.testBit_and]
  have hmask : (2 ^ 64 - 2 ^ k) = 2 ^ 64 - (2 ^ k - 1 + 1) := by omega
  rw [hmask, Nat.testBit_two_pow_sub_succ hx, Nat.testBit_two_pow_sub_one,
    Nat.testBit_mul_pow_two]
  by_cases hik : k ≤ i
  · have hki : k + (i - k) = i := by omega
    have hdiv : Nat.testBit (y / 2 ^ k) (i - k) = Nat.testBit y i := by
      rw [← Nat.shiftRight_eq_div_pow, Nat.testBit_shiftRight, hki]
    rw [hdiv]
    by_cases hiw : i < 64
    · simp [hik, hiw, Nat.not_lt.mpr hik, Bool.and_comm]
    · have hyb : Nat.testBit y i = false :=
        Nat.testBit_lt_two_pow
          (lt_of_lt_of_le hy (Nat.pow_le_pow_right (by norm_num) (le_of_not_lt hiw)))
      simp [hyb, hik]
  · have hik' : i < k := lt_of_not_ge hik
    simp [hik', hik]

/-- `alignUp64` with a power-of-two alignment rounds the cursor up: the
result is at least the cursor and at most cursor plus alignment minus one. -/
theorem alignUp64_pow2 {x k : ℕ} (hk : k ≤ 63) (hx : x + 2 ^ k - 1 < 2 ^ 64) :
    x ≤ alignUp64 x (2 ^ k) ∧ alignUp64 x (2 ^ k) ≤ x + (2 ^ k - 1) := by
  have h1 : (1 : ℕ) ≤ 2 ^ k := Nat.one_le_two_pow
  have hk64 : (2 : ℕ) ^ k ≤ 2 ^ 63 := Nat.pow_le_pow_right (by norm_num) hk
  have h63 : (2 : ℕ) ^ 63 < 2 ^ 64 := by norm_num
  have hW : W64 = 2 ^ 64 := rfl
  have hsub1 : size_t_sub_one (2 ^ k) = 2 ^ k - 1 := by
    unfold size_t_sub_one
    rw [hW]
    have he : 2 ^ k + (2 ^ 64 - 1) = 2 ^ 64 + (2 ^ k - 1) := by omega
    rw [he, Nat.add_mod_left, Nat.mod_eq_of_lt (by omega)]
  have hy : x + (2 ^ k - 1) < 2 ^ 64 := by omega
  unfold alignUp64
  rw [hsub1, hW]
  have hmask : 2 ^ 64 - 1 - (2 ^ k - 1) = 2 ^ 64 - 2 ^ k := by omega
  rw [hmask, Nat.mod_eq_of_lt hy, and_two_pow_compl (by omega) hy]
  have hmod : (x + (2 ^ k - 1)) % 2 ^ k < 2 ^ k := Nat.mod_lt _ (by omega)
  constructor
  · omega
  · omega

/-- One `UploadAlloc::Allocate` call from a state whose cursor sits inside
frame `i`'s region: on failure the state is untouched and the result
invalid; on success the returned pointer covers exactly
`[cpuBase + aligned, cpuBase + aligned + size)` inside the frame region, and
the cursor stays inside the region. All `size_t` wrap-arounds are excluded
by the stated realistic bounds. -/
theorem UploadAlloc_Allocate_step (i : ℕ) (s : UploadAlloc) (size k : ℕ)
    (hcur : s.currentFrame = i)
    (hlo : i * s.perFrameSize ≤ s.head)
    (hhi : s.head ≤ (i + 1) * s.perFrameSize)
    (hW : (i + 1) * s.perFrameSize < 2 ^ 64)
    (hsz : 0 < size)
    (hk : k ≤ 63)
    (hbound : 2 ^ k + size + (i + 1) * s.perFrameSize ≤ 2 ^ 64)
    (hcb : s.cpuBase + (i + 1) * s.perFrameSize ≤ 2 ^ 64) :
    (((i + 1) * s.perFrameSize < alignUp64 s.head (2 ^ k) + size →
        (UploadAlloc.Allocate s size (2 ^ k)).1 = Allocation.invalid ∧
        (UploadAlloc.Allocate s size (2 ^ k)).2 = s)
    ∧ (alignUp64 s.head (2 ^ k) + size ≤ (i + 1) * s.perFrameSize →
        (UploadAlloc.Allocate s size (2 ^ k)).1.cpuPtr =
          some (s.cpuBase + alignUp64 s.head (2 ^ k)) ∧
        (UploadAlloc.Allocate s size (2 ^ k)).1.size = size ∧
        (UploadAlloc.Allocate s size (2 ^ k)).2 =
          { s with head := alignUp64 s.head (2 ^ k) + size })
    ∧ (∀ p, (UploadAlloc.Allocate s size (2 ^ k)).1.cpuPtr = some p →
        s.cpuBase + i * s.perFrameSize ≤ p ∧
        p + (UploadAlloc.Allocate s size (2 ^ k)).1.size ≤
          s.cpuBase + (i + 1) * s.perFrameSize)
    ∧ ((UploadAlloc.Allocate s size (2 ^ k)).2.currentFrame = i
       ∧ (UploadAlloc.Allocate s size (2 ^ k)).2.perFrameSize = s.perFrameSize
       ∧ (UploadAlloc.Allocate s size (2 ^ k)).2.cpuBase = s.cpuBase
       ∧ i * s.perFrameSize ≤ (UploadAlloc.Allocate s size (2 ^ k)).2.head
       ∧ (UploadAlloc.Allocate s size (2 ^ k)).2.head ≤
          (i + 1) * s.perFrameSize)) := by
  have hPQ : i * s.perFrameSize ≤ (i + 1) * s.perFrameSize :=
    Nat.mul_le_mul_right _ (by omega)
  obtain ⟨ha1, ha2⟩ := alignUp64_pow2 hk (show s.head + 2 ^ k - 1 < 2 ^ 64 by
    have h1 : (1 : ℕ) ≤ 2 ^ k := Nat.one_le_two_pow
    omega)
  have h1 : (1 : ℕ) ≤ 2 ^ k := Nat.one_le_two_pow
  set a := alignUp64 s.head (2 ^ k) with ha
  have hQ : i * s.perFrameSize % W64 = i * s.perFrameSize :=
    Nat.mod_eq_of_lt (by unfold W64; omega)
  have hsucc : i * s.perFrameSize + s.perFrameSize = (i + 1) * s.perFrameSize := by
    rw [Nat.succ_mul]
  have hnh : (a + size) % W64 = a + size :=
    Nat.mod_eq_of_lt (by unfold W64; omega)
  have hP : (i + 1) * s.perFrameSize % W64 = (i + 1) * s.perFrameSize :=
    Nat.mod_eq_of_lt (by unfold W64; omega)
  unfold UploadAlloc.Allocate
  rw [if_neg (by omega), hcur]
  simp only [hQ, hsucc, hnh, hP]
  by_cases hcase : (i + 1) * s.perFrameSize < a + size
  · rw [if_pos hcase]
    refine ⟨fun _ => ⟨rfl, rfl⟩, fun hle => absurd hle (by omega), ?_, ?_⟩
    · intro p hp
      simp [Allocation.invalid] at hp
    · exact ⟨hcur, rfl, rfl, hlo, hhi⟩
  · rw [if_neg hcase]
    have hle : a + size ≤ (i + 1) * s.perFrameSize := by omega
    have hcp : (s.cpuBase + a) % W64 = s.cpuBase + a :=
      Nat.mod_eq_of_lt (by unfold W64; omega)
    refine ⟨fun hgt => absurd hgt (by omega), fun _ => ⟨by simp [hcp], rfl, rfl⟩, ?_, ?_⟩
    · intro p hp
      simp only [hcp] at hp
      have hpe : s.cpuBase + a = p := by
        simpa using hp
      subst hpe
      constructor
      · omega
      · dsimp only
        omega
    · refine ⟨rfl, rfl, rfl, ?_, ?_⟩ <;> dsimp only <;> omega

/-- Every allocation of a run stays inside frame `i`'s region, and the
cursor never leaves it. -/
theorem runAllocs_invariant (i : ℕ) (reqs : List (ℕ × ℕ)) :
    ∀ (s : UploadAlloc), s.currentFrame = i →
    (i + 1) * s.perFrameSize < 2 ^ 64 →
    s.cpuBase + (i + 1) * s.perFrameSize ≤ 2 ^ 64 →
    i * s.perFrameSize ≤ s.head → s.head ≤ (i + 1) * s.perFrameSize →
    (∀ r ∈ reqs, 0 < r.1 ∧ (∃ k, k ≤ 63 ∧ r.2 = 2 ^ k) ∧
        r.2 + r.1 + (i + 1) * s.perFrameSize ≤ 2 ^ 64) →
    (∀ a ∈ (UploadAlloc.runAllocs s reqs).1, ∀ p, a.cpuPtr = some p →
        s.cpuBase + i * s.perFrameSize ≤ p ∧
        p + a.size ≤ s.cpuBase + (i + 1) * s.perFrameSize)
    ∧ (UploadAlloc.runAllocs s reqs).2.perFrameSize = s.perFrameSize
    ∧ (UploadAlloc.runAllocs s reqs).2.cpuBase = s.cpuBase
    ∧ i * s.perFrameSize ≤ (UploadAlloc.runAllocs s reqs).2.head
    ∧ (UploadAlloc.runAllocs s reqs).2.head ≤ (i + 1) * s.perFrameSize := by
  induction reqs with
  | nil =>
    intro s _ _ _ h4 h5 _
    refine ⟨?_, rfl, rfl, h4, h5⟩
    intro a ha
    simp [UploadAlloc.runAllocs] at ha
  | cons r rest ih =>
    intro s h1 h2 h3 h4 h5 hreq
    obtain ⟨hsz, ⟨k, hk, hal⟩, hbound⟩ := hreq r (List.mem_cons_self _ _)
    obtain ⟨r1, r2⟩ := r
    dsimp only at hsz hal hbound
    subst hal
    obtain ⟨hfail, hok, hbounds, hcur', hpf', hcb', hlo', hhi'⟩ :=
      UploadAlloc_Allocate_step i s r1 k h1 h4 h5 h2 hsz hk hbound h3
    have ihh := ih (UploadAlloc.Allocate s r1 (2 ^ k)).2 hcur'
      (by rw [hpf']; exact h2) (by rw [hpf', hcb']; exact h3)
      (by rw [hpf']; exact hlo') (by rw [hpf']; exact hhi')
      (by
        intro r' hr'
        have hh := hreq r' (List.mem_cons_of_mem _ hr')
        rw [hpf']
        exact hh)
    simp only [UploadAlloc.runAllocs]
    refine ⟨?_, ?_, ?_, ?_, ?_⟩
    · intro a ha
      rcases List.mem_cons.mp ha with rfl | hmem
      · exact hbounds
      · have hres := ihh.1 a hmem
        rwa [hcb', hpf'] at hres
    · rw [ihh.2.1, hpf']
    · rw [ihh.2.2.1, hcb']
    · have hres := ihh.2.2.2.1
      rwa [hpf'] at hres
    · have hres := ihh.2.2.2.2
      rwa [hpf'] at hres

/-- C2: after `BeginFrame(i)`, every allocation with a non-null `cpuPtr`
returned by any `Allocate` sequence lies inside
`[cpuBase + i*perFrameSize, cpuBase + (i+1)*perFrameSize]`; the cursor never
leaves frame `i`'s region; and whenever the aligned cursor plus the
requested size would exceed the region end, `Allocate` returns the invalid
allocation and leaves the state (in particular the cursor) untouched.
Hypotheses: requested sizes are positive, alignments are powers of two, and
sizes/addresses are small enough that no 64-bit `size_t` computation wraps
(as in any real process hosting the mapped buffer). -/
theorem c2_uploadAlloc_allocations_stay_in_frame_region
    (s0 : UploadAlloc) (i : ℕ) (reqs : List (ℕ × ℕ))
    (hi : i < 2 ^ 32)
    (hW : (i + 1) * s0.perFrameSize < 2 ^ 64)
    (hcb : s0.cpuBase + (i + 1) * s0.perFrameSize ≤ 2 ^ 64)
    (hreq : ∀ r ∈ reqs, 0 < r.1 ∧ (∃ k, k ≤ 63 ∧ r.2 = 2 ^ k) ∧
        r.2 + r.1 + (i + 1) * s0.perFrameSize ≤ 2 ^ 64) :
    (∀ a ∈ (UploadAlloc.runAllocs (s0.BeginFrame i) reqs).1, ∀ p,
        a.cpuPtr = some p →
        s0.cpuBase + i * s0.perFrameSize ≤ p ∧
        p + a.size ≤ s0.cpuBase + (i + 1) * s0.perFrameSize)
    ∧ i * s0.perFrameSize ≤ (UploadAlloc.runAllocs (s0.BeginFrame i) reqs).2.head
    ∧ (UploadAlloc.runAllocs (s0.BeginFrame i) reqs).2.head ≤
        (i + 1) * s0.perFrameSize
    ∧ (∀ (s : UploadAlloc) (size k : ℕ), s.currentFrame = i →
        s.perFrameSize = s0.perFrameSize →
        i * s0.perFrameSize ≤ s.head → s.head ≤ (i + 1) * s0.perFrameSize →
        0 < size → k ≤ 63 → 2 ^ k + size + (i + 1) * s0.perFrameSize ≤ 2 ^ 64 →
        s.cpuBase + (i + 1) * s0.perFrameSize ≤ 2 ^ 64 →
        (i + 1) * s0.perFrameSize < alignUp64 s.head (2 ^ k) + size →
        (UploadAlloc.Allocate s size (2 ^ k)).1 = Allocation.invalid ∧
        (UploadAlloc.Allocate s size (2 ^ k)).2 = s) := by
  have hPQ : i * s0.perFrameSize ≤ (i + 1) * s0.perFrameSize :=
    Nat.mul_le_mul_right _ (by omega)
  have hiW : i % W32 = i := Nat.mod_eq_of_lt hi
  have hcur0 : (s0.BeginFrame i).currentFrame = i := by
    simp [UploadAlloc.BeginFrame, hiW]
  have hhead0 : (s0.BeginFrame i).head = i * s0.perFrameSize := by
    simp only [UploadAlloc.BeginFrame, hiW]
    exact Nat.mod_eq_of_lt (by unfold W64; omega)
  have main := runAllocs_invariant i reqs (s0.BeginFrame i) hcur0 hW hcb
    (by rw [hhead0]; exact Nat.le.refl) (by rw [hhead0]; exact hPQ) hreq
  refine ⟨main.1, main.2.2.2.1, main.2.2.2.2, ?_⟩
  intro s size k hscur hspf hslo hshi hssz hsk hsbound hscb hexceed
  have hstep := UploadAlloc_Allocate_step i s size k hscur
    (by rw [hspf]; exact hslo) (by rw [hspf]; exact hshi)
    (by rw [hspf]; exact hW) hssz hsk (by rw [hspf]; exact hsbound)
    (by rw [hspf]; exact hscb)
  exact hstep.1 (by rw [hspf]; exact hexceed)

/-- C2 witness: a concrete frame-0 run with one 8-byte, 4-aligned request
inside a 16-byte-per-frame allocator. -/
theorem c2_witness :
    (UploadAlloc.runAllocs (uploadAllocExample.BeginFrame 0) [(8, 4)]).2.head ≤
      (0 + 1) * uploadAllocExample.perFrameSize :=
  (c2_uploadAlloc_allocations_stay_in_frame_region uploadAllocExample 0 [(8, 4)]
    (by norm_num)
    (by norm_num [uploadAllocExample])
    (by norm_num [uploadAllocExample])
    (by
      intro r hr
      rw [List.mem_singleton] at hr
      subst hr
      refine ⟨by norm_num, ⟨2, by norm_num⟩, by norm_num [uploadAllocExample]⟩)).2.2.1

end Spec2Proof
